import Mathlib

/-!
Verification of the asynchronous result sink of the wmi-rs repository
(src/query_sink.rs): a shallow embedding of the `indicate` and `set_status`
callback operations of `QuerySink`, together with proofs of the specified
properties.

Foreign COM objects are identified by natural numbers.  A slot of the
`apObjArray` argument is either a null pointer (`Option.none`) or a pointer
to an object.  The whole array pointer may itself be null or invalid, which
the embedding models with an outer `Option`; dereferencing an invalid
pointer (or reading out of bounds) makes the operation undefined, which the
embedding models by returning `Option.none` for the whole call.

The sink state records the channel contents (the queue of the futures
unbounded mpsc channel), whether the channel has been closed, whether the
receiving half still exists, and the observable side effects of the sink:
the sequence of reference-count increments performed through
`IWbemClassWrapper::clone` (AddRef events), the sequence of
`unbounded_send` calls made, and the number of warnings logged.
-/

namespace WmiSink

/-- Identity of a foreign `IWbemClassObject` behind a non-null COM pointer. -/
abbrev ObjId := Nat

/-- One slot of `apObjArray`: a null pointer, or a pointer to an object. -/
abbrev Slot := Option ObjId

/-- `IWbemClassWrapper`: an owned handle to a foreign class object, created
by `IWbemClassWrapper::clone`, which increments the object's reference
count. -/
structure IWbemClassWrapper where
  obj : ObjId
deriving DecidableEq

/-- `WMIError`: the error type of the crate.  The channel element type is
`Result<IWbemClassWrapper, WMIError>`; the sink never constructs an error
value, so a single representative constructor suffices. -/
inductive WMIError where
  | nullPointerResult
deriving DecidableEq

deriving instance DecidableEq for Except

/-- An element of the delivery channel:
`Result<IWbemClassWrapper, WMIError>`. -/
abbrev ChanElem := Except WMIError IWbemClassWrapper

/-- The observable state of one `QuerySink` together with its channel. -/
structure SinkState where
  /-- Elements currently enqueued in the unbounded channel, oldest first. -/
  queue : List ChanElem
  /-- Whether `close_channel` has been called on the sender. -/
  closed : Bool
  /-- Whether the receiving half of the channel still exists. -/
  receiverAlive : Bool
  /-- Reference-count increments performed so far (AddRef events), in
  order, one entry per `IWbemClassWrapper::clone` call. -/
  clones : List ObjId
  /-- All `unbounded_send` calls made so far, in order, successful or not. -/
  sends : List ChanElem
  /-- Number of warnings logged (failed sends). -/
  warns : Nat
deriving DecidableEq

/-- `WBEM_NO_ERROR as i32`, the success status code. -/
def WBEM_NO_ERROR : Int := 0

/-- `WBEM_STATUS_COMPLETE as i32`, the completion indicator. -/
def WBEM_STATUS_COMPLETE : Int := 0

/-- `E_POINTER` (`0x80004003u32 as i32`), the pointer-error status code. -/
def E_POINTER : Int := -2147467261

/-- The state of a fresh sink and channel: empty queue, channel open,
receiver alive, no side effects performed yet. -/
def initState : SinkState :=
  { queue := [], closed := false, receiverAlive := true
    clones := [], sends := [], warns := 0 }

/-- `UnboundedSender::unbounded_send`: the call is recorded in `sends`;
the element is appended to the queue when the receiver is alive and the
channel is not closed, otherwise the send fails and the sink only logs a
warning (`warn!` in `indicate`). -/
def unbounded_send (st : SinkState) (x : ChanElem) : SinkState :=
  if st.receiverAlive && !st.closed then
    { st with sends := st.sends ++ [x], queue := st.queue ++ [x] }
  else
    { st with sends := st.sends ++ [x], warns := st.warns + 1 }

/-- `IWbemClassWrapper::clone` on a non-null pointer: performs exactly one
AddRef on the pointed-to object and returns the owned wrapper. -/
def cloneWrapper (st : SinkState) (p : ObjId) : SinkState × IWbemClassWrapper :=
  ({ st with clones := st.clones ++ [p] }, ⟨p⟩)

/-- Reading `*apObjArray.offset(i)`: undefined when the array pointer is
null or invalid or the read is out of bounds, otherwise the slot at `i`. -/
def readSlot (apObjArray : Option (List Slot)) (i : Nat) : Option Slot :=
  match apObjArray with
  | none => none
  | some l => l.get? i

/-- The `for i in 0..lObjectCount` loop body of `indicate`: at index `i`
with `r` slots remaining, read slot `i`; on a null slot return `E_POINTER`
at once; otherwise clone the object and send the wrapper, then continue.
Returns `none` when a slot read is undefined. -/
def indicateLoop (apObjArray : Option (List Slot)) :
    SinkState → Nat → Nat → Option (Int × SinkState)
  | st, _, 0 => some (WBEM_NO_ERROR, st)
  | st, i, r + 1 =>
    match readSlot apObjArray i with
    | none => none
    | some none => some (E_POINTER, st)
    | some (some p) =>
      let sc := cloneWrapper st p
      indicateLoop apObjArray (unbounded_send sc.1 (Except.ok sc.2)) (i + 1) r

/-- `QuerySink::indicate`: if `lObjectCount <= 0` return `WBEM_NO_ERROR`
immediately, without reading `apObjArray`; otherwise iterate the slots
`0..lObjectCount`. -/
def indicate (st : SinkState) (lObjectCount : Int)
    (apObjArray : Option (List Slot)) : Option (Int × SinkState) :=
  if lObjectCount ≤ 0 then some (WBEM_NO_ERROR, st)
  else indicateLoop apObjArray st 0 lObjectCount.toNat

/-- `QuerySink::set_status`: close the channel when `lFlags` equals
`WBEM_STATUS_COMPLETE`; the remaining parameters are accepted but unused;
always return `WBEM_NO_ERROR`. -/
def set_status (st : SinkState) (lFlags : Int) (_hResult : Int)
    (_strParam : Option String) (_pObjParam : Slot) : Int × SinkState :=
  if lFlags = WBEM_STATUS_COMPLETE then
    (WBEM_NO_ERROR, { st with closed := true })
  else
    (WBEM_NO_ERROR, st)

/-- Clone-and-send over a list of non-null slots, in order: the effect of
the loop body on a run of non-null slots. -/
def sendAll : SinkState → List ObjId → SinkState
  | st, [] => st
  | st, p :: rest =>
    let sc := cloneWrapper st p
    sendAll (unbounded_send sc.1 (Except.ok sc.2)) rest

/-- The loop of `indicate` rephrased structurally over the list of slots it
reads: empty list succeeds, a null head stops with `E_POINTER`, a non-null
head is cloned and sent. -/
def loopList : SinkState → List Slot → Option (Int × SinkState)
  | st, [] => some (WBEM_NO_ERROR, st)
  | st, none :: _ => some (E_POINTER, st)
  | st, some p :: rest =>
    let sc := cloneWrapper st p
    loopList (unbounded_send sc.1 (Except.ok sc.2)) rest

/-- The three-call scenario deliver-batch(2, [A, B]), deliver-batch(1, [C]),
report-status(completion flag), started on a fresh sink, with A = 1, B = 2,
C = 3: the list of the three returned status codes and the final state. -/
def runScenario : Option (List Int × SinkState) :=
  match indicate initState 2 (some [some 1, some 2]) with
  | none => none
  | some (h1, s1) =>
    match indicate s1 1 (some [some 3]) with
    | none => none
    | some (h2, s2) =>
      match set_status s2 WBEM_STATUS_COMPLETE 0 none none with
      | (h3, s3) => some ([h1, h2, h3], s3)

/-- Sink states reachable from a fresh channel by any sequence of defined
`indicate` and `set_status` calls; the consumer may additionally drop the
receiving half of the channel at any point. -/
inductive Reachable : SinkState → Prop where
  | init : Reachable initState
  | indicate_step {st st' : SinkState} {hr c : Int}
      {arr : Option (List Slot)} :
      Reachable st → indicate st c arr = some (hr, st') → Reachable st'
  | status_step {st st' : SinkState} {hr f a : Int} {s : Option String}
      {o : Slot} :
      Reachable st → set_status st f a s o = (hr, st') → Reachable st'
  | drop_receiver {st : SinkState} :
      Reachable st → Reachable { st with receiverAlive := false }

/-- The indexed loop of `indicate` over a valid array agrees with the
structural loop over the slots it reads. -/
lemma indicateLoop_eq_loopList :
    ∀ (r i : Nat) (st : SinkState) (l : List Slot), i + r ≤ l.length →
      indicateLoop (some l) st i r = loopList st ((l.drop i).take r) := by
  intro r
  induction r with
  | zero =>
    intro i st l _
    simp [indicateLoop, loopList]
  | succ r ih =>
    intro i st l h
    have hi : i < l.length := by omega
    have hread : readSlot (some l) i = some l[i] := by
      simp [readSlot, List.get?_eq_getElem?, List.getElem?_eq_getElem hi]
    have hdrop : l.drop i = l[i] :: l.drop (i + 1) :=
      List.drop_eq_getElem_cons hi
    rw [hdrop, List.take_succ_cons]
    cases hsl : l[i] with
    | none =>
      simp [indicateLoop, hread, hsl, loopList]
    | some p =>
      simp only [indicateLoop, hread, hsl, loopList]
      exact ih (i + 1) _ l (by omega)

/-- The clone events and send calls of `sendAll`: exactly one clone and one
send per object, in order, regardless of the channel's condition. -/
lemma sendAll_clones_sends :
    ∀ (objs : List ObjId) (st : SinkState),
      (sendAll st objs).clones = st.clones ++ objs ∧
      (sendAll st objs).sends =
        st.sends ++ objs.map (fun p => Except.ok ⟨p⟩) := by
  intro objs
  induction objs with
  | nil => intro st; simp [sendAll]
  | cons p rest ih =>
    intro st
    simp only [sendAll, cloneWrapper, List.map_cons]
    rcases ih (unbounded_send { st with clones := st.clones ++ [p] }
        (Except.ok ⟨p⟩)) with ⟨hc, hs⟩
    constructor
    · rw [hc]
      unfold unbounded_send
      split <;> simp
    · rw [hs]
      unfold unbounded_send
      split <;> simp

/-- On a live open channel, `sendAll` appends exactly the objects' wrappers
to the queue, in order, and logs nothing. -/
lemma sendAll_live :
    ∀ (objs : List ObjId) (st : SinkState),
      st.receiverAlive = true → st.closed = false →
      sendAll st objs =
        { st with
          queue := st.queue ++ objs.map (fun p => Except.ok ⟨p⟩),
          clones := st.clones ++ objs,
          sends := st.sends ++ objs.map (fun p => Except.ok ⟨p⟩) } := by
  intro objs
  induction objs with
  | nil => intro st _ _; simp [sendAll]
  | cons p rest ih =>
    intro st halive hopen
    have hsend : unbounded_send { st with clones := st.clones ++ [p] }
        (Except.ok ⟨p⟩) =
        { st with clones := st.clones ++ [p]
                  sends := st.sends ++ [Except.ok ⟨p⟩]
                  queue := st.queue ++ [Except.ok ⟨p⟩] } := by
      unfold unbounded_send
      simp [halive, hopen]
    simp only [sendAll, cloneWrapper]
    rw [hsend, ih _ (by simp [halive]) (by simp [hopen])]
    simp

/-- When the receiving half is gone, `sendAll` enqueues nothing: every send
fails and is logged, while the clones and send calls still happen. -/
lemma sendAll_dead :
    ∀ (objs : List ObjId) (st : SinkState),
      st.receiverAlive = false →
      sendAll st objs =
        { st with
          clones := st.clones ++ objs,
          sends := st.sends ++ objs.map (fun p => Except.ok ⟨p⟩),
          warns := st.warns + objs.length } := by
  intro objs
  induction objs with
  | nil => intro st _; simp [sendAll]
  | cons p rest ih =>
    intro st hdead
    have hsend : unbounded_send { st with clones := st.clones ++ [p] }
        (Except.ok ⟨p⟩) =
        { st with clones := st.clones ++ [p]
                  sends := st.sends ++ [Except.ok ⟨p⟩]
                  warns := st.warns + 1 } := by
      unfold unbounded_send
      simp [hdead]
    simp only [sendAll, cloneWrapper]
    rw [hsend, ih _ (by simp [hdead])]
    simp [List.length_cons]
    omega

/-- A run of non-null slots is processed completely, returning success. -/
lemma loopList_map_some :
    ∀ (objs : List ObjId) (st : SinkState),
      loopList st (objs.map some) = some (WBEM_NO_ERROR, sendAll st objs) := by
  intro objs
  induction objs with
  | nil => intro st; simp [loopList, sendAll]
  | cons p rest ih =>
    intro st
    simp only [List.map_cons, loopList, sendAll]
    exact ih _

/-- A run of non-null slots followed by a null slot is processed up to the
null slot, then stops with `E_POINTER`. -/
lemma loopList_null :
    ∀ (objs : List ObjId) (st : SinkState) (rest : List Slot),
      loopList st (objs.map some ++ none :: rest) =
        some (E_POINTER, sendAll st objs) := by
  intro objs
  induction objs with
  | nil => intro st rest; simp [loopList, sendAll]
  | cons p tl ih =>
    intro st rest
    simp only [List.map_cons, List.cons_append, loopList, sendAll]
    exact ih _ rest

/-- Sending an Ok element keeps the queue and the send log free of Err
elements. -/
lemma unbounded_send_ok (st : SinkState) (w : IWbemClassWrapper)
    (hq : ∀ x ∈ st.queue, ∃ v, x = Except.ok v)
    (hs : ∀ x ∈ st.sends, ∃ v, x = Except.ok v) :
    (∀ x ∈ (unbounded_send st (Except.ok w)).queue, ∃ v, x = Except.ok v) ∧
    (∀ x ∈ (unbounded_send st (Except.ok w)).sends, ∃ v, x = Except.ok v) := by
  unfold unbounded_send
  split
  · constructor
    · intro x hx
      rcases List.mem_append.mp hx with h | h
      · exact hq x h
      · exact ⟨w, List.mem_singleton.mp h⟩
    · intro x hx
      rcases List.mem_append.mp hx with h | h
      · exact hs x h
      · exact ⟨w, List.mem_singleton.mp h⟩
  · constructor
    · intro x hx
      exact hq x hx
    · intro x hx
      rcases List.mem_append.mp hx with h | h
      · exact hs x h
      · exact ⟨w, List.mem_singleton.mp h⟩

/-- The loop of `indicate` keeps the queue and the send log free of Err
elements. -/
lemma indicateLoop_ok (arr : Option (List Slot)) :
    ∀ (r i : Nat) (st : SinkState) (hr : Int) (st' : SinkState),
      indicateLoop arr st i r = some (hr, st') →
      (∀ x ∈ st.queue, ∃ v, x = Except.ok v) →
      (∀ x ∈ st.sends, ∃ v, x = Except.ok v) →
      (∀ x ∈ st'.queue, ∃ v, x = Except.ok v) ∧
      (∀ x ∈ st'.sends, ∃ v, x = Except.ok v) := by
  intro r
  induction r with
  | zero =>
    intro i st hr st' heq hq hs
    simp [indicateLoop] at heq
    rw [← heq.2]
    exact ⟨hq, hs⟩
  | succ r ih =>
    intro i st hr st' heq hq hs
    unfold indicateLoop at heq
    cases hread : readSlot arr i with
    | none =>
      rw [hread] at heq
      exact absurd heq (by simp)
    | some sl =>
      rw [hread] at heq
      cases sl with
      | none =>
        simp at heq
        rw [← heq.2]
        exact ⟨hq, hs⟩
      | some p =>
        simp only [cloneWrapper] at heq
        have h := unbounded_send_ok { st with clones := st.clones ++ [p] }
          ⟨p⟩ hq hs
        exact ih (i + 1) _ hr st' heq h.1 h.2

/-- `indicate` keeps the queue and the send log free of Err elements. -/
lemma indicate_ok {st st' : SinkState} {c hr : Int}
    {arr : Option (List Slot)}
    (heq : indicate st c arr = some (hr, st'))
    (hq : ∀ x ∈ st.queue, ∃ v, x = Except.ok v)
    (hs : ∀ x ∈ st.sends, ∃ v, x = Except.ok v) :
    (∀ x ∈ st'.queue, ∃ v, x = Except.ok v) ∧
    (∀ x ∈ st'.sends, ∃ v, x = Except.ok v) := by
  unfold indicate at heq
  split at heq
  · simp at heq
    rw [← heq.2]
    exact ⟨hq, hs⟩
  · exact indicateLoop_ok arr c.toNat 0 st hr st' heq hq hs

/-- `set_status` neither enqueues nor sends anything at all. -/
lemma set_status_ok {st st' : SinkState} {f a hr : Int} {s : Option String}
    {o : Slot}
    (heq : set_status st f a s o = (hr, st'))
    (hq : ∀ x ∈ st.queue, ∃ v, x = Except.ok v)
    (hs : ∀ x ∈ st.sends, ∃ v, x = Except.ok v) :
    (∀ x ∈ st'.queue, ∃ v, x = Except.ok v) ∧
    (∀ x ∈ st'.sends, ∃ v, x = Except.ok v) := by
  unfold set_status at heq
  split at heq <;> (cases heq; exact ⟨hq, hs⟩)

/-- For a positive count over a valid array covering the count, `indicate`
is the structural loop over the first `count` slots. -/
lemma indicate_pos (st : SinkState) (c : Int) (l : List Slot)
    (hc : 0 < c) (hlen : c.toNat ≤ l.length) :
    indicate st c (some l) = loopList st (l.take c.toNat) := by
  unfold indicate
  rw [if_neg (by omega)]
  have h := indicateLoop_eq_loopList c.toNat 0 st l (by omega)
  simpa using h

/-- C1: a deliver-batch (`indicate`) call with positive count and no null
slot in the array enqueues exactly `count` items onto the channel, in slot
order `0..count`, and returns `WBEM_NO_ERROR`. -/
theorem indicate_full_batch_spec (st : SinkState) (c : Int) (objs : List ObjId)
    (halive : st.receiverAlive = true) (hopen : st.closed = false)
    (hc : 0 < c) (hlen : c.toNat = objs.length) :
    indicate st c (some (objs.map some)) =
      some (WBEM_NO_ERROR,
        { st with
          queue := st.queue ++ objs.map (fun p => Except.ok ⟨p⟩)
          clones := st.clones ++ objs
          sends := st.sends ++ objs.map (fun p => Except.ok ⟨p⟩) }) := by
  rw [indicate_pos st c _ hc (by simp [hlen])]
  rw [List.take_of_length_le (by simp [hlen])]
  rw [loopList_map_some, sendAll_live objs st halive hopen]

/-- Witness for C1 at count 2 and objects `[4, 9]`. -/
theorem indicate_full_batch_spec_witness :
    indicate initState 2 (some [some 4, some 9]) =
      some (WBEM_NO_ERROR,
        { initState with
          queue := initState.queue ++ [4, 9].map (fun p => Except.ok ⟨p⟩)
          clones := initState.clones ++ [4, 9]
          sends := initState.sends ++ [4, 9].map (fun p => Except.ok ⟨p⟩) }) :=
  indicate_full_batch_spec initState 2 [4, 9] rfl rfl (by decide) (by decide)

/-- C3: `set_status` always returns `WBEM_NO_ERROR`; it closes the channel
exactly when `lFlags` equals `WBEM_STATUS_COMPLETE`, and otherwise leaves
the state, hence the channel, untouched. -/
theorem set_status_spec (st : SinkState) (f a : Int) (s : Option String)
    (o : Slot) :
    (set_status st f a s o).1 = WBEM_NO_ERROR ∧
    (set_status st f a s o).2 =
      (if f = WBEM_STATUS_COMPLETE then { st with closed := true } else st) := by
  unfold set_status
  split <;> simp

/-- C6: a deliver-batch (`indicate`) call with `count <= 0` enqueues
nothing, changes nothing, and returns `WBEM_NO_ERROR`. -/
theorem indicate_nonpos_spec (st : SinkState) (c : Int)
    (arr : Option (List Slot)) (hc : c ≤ 0) :
    indicate st c arr = some (WBEM_NO_ERROR, st) := by
  unfold indicate
  rw [if_pos hc]

/-- Witness for C6 at count `-3` with a null slot in the array. -/
theorem indicate_nonpos_spec_witness :
    indicate initState (-3) (some [none]) = some (WBEM_NO_ERROR, initState) :=
  indicate_nonpos_spec initState (-3) (some [none]) (by decide)

/-- C8: the result of `set_status` (status code and state effect) depends
only on `lFlags`; the other three parameters are never inspected. -/
theorem set_status_depends_only_on_flags (st : SinkState) (f a a' : Int)
    (s s' : Option String) (o o' : Slot) :
    set_status st f a s o = set_status st f a' s' o' := rfl

/-- C10: with `count <= 0` the array argument is never read: the call has
the same defined result for every array, including a null or invalid one,
namely success with the state unchanged. -/
theorem indicate_nonpos_no_deref (st : SinkState) (c : Int)
    (arr : Option (List Slot)) (hc : c ≤ 0) :
    indicate st c arr = indicate st c none ∧
    indicate st c none = some (WBEM_NO_ERROR, st) := by
  unfold indicate
  rw [if_pos hc, if_pos hc]
  exact ⟨rfl, rfl⟩

/-- Witness for C10 at count `-1` and a non-null array. -/
theorem indicate_nonpos_no_deref_witness :
    indicate initState (-1) (some [some 7]) = indicate initState (-1) none ∧
    indicate initState (-1) none = some (WBEM_NO_ERROR, initState) :=
  indicate_nonpos_no_deref initState (-1) (some [some 7]) (by decide)

/-- C2: when the first null slot of a deliver-batch is at 0-based index
`i = objs.length`, exactly the `i` items before it are enqueued, in order,
nothing at or after the null slot is enqueued, and `E_POINTER` is
returned. -/
theorem indicate_null_slot_spec (st : SinkState) (c : Int) (objs : List ObjId)
    (rest : List Slot)
    (halive : st.receiverAlive = true) (hopen : st.closed = false)
    (hi : objs.length < c.toNat)
    (hlen : c.toNat ≤ (objs.map some ++ none :: rest).length) :
    indicate st c (some (objs.map some ++ none :: rest)) =
      some (E_POINTER,
        { st with
          queue := st.queue ++ objs.map (fun p => Except.ok ⟨p⟩)
          clones := st.clones ++ objs
          sends := st.sends ++ objs.map (fun p => Except.ok ⟨p⟩) }) := by
  have hc : 0 < c := by omega
  rw [indicate_pos st c _ hc hlen]
  obtain ⟨k, hk⟩ : ∃ k, c.toNat - objs.length = k + 1 :=
    ⟨c.toNat - objs.length - 1, by omega⟩
  rw [List.take_append_eq_append_take,
    List.take_of_length_le (by simp; omega)]
  simp only [List.length_map]
  rw [hk, List.take_succ_cons]
  rw [loopList_null, sendAll_live objs st halive hopen]

/-- Witness for C2 at count 3, array `[some 4, none, some 9]`, so the first
null slot is at index 1. -/
theorem indicate_null_slot_spec_witness :
    indicate initState 3 (some ([4].map some ++ none :: [some 9])) =
      some (E_POINTER,
        { initState with
          queue := initState.queue ++ [4].map (fun p => Except.ok ⟨p⟩)
          clones := initState.clones ++ [4]
          sends := initState.sends ++ [4].map (fun p => Except.ok ⟨p⟩) }) :=
  indicate_null_slot_spec initState 3 [4] [some 9] rfl rfl (by decide)
    (by decide)

/-- C4: when the receiving half of the channel is gone, a deliver-batch
with no null slot still processes every slot (one clone and one send call
each, every failure merely logged), enqueues nothing, and returns the same
`WBEM_NO_ERROR` it would return with a live consumer. -/
theorem indicate_consumer_gone_spec (st : SinkState) (c : Int)
    (objs : List ObjId)
    (hdead : st.receiverAlive = false)
    (hc : 0 < c) (hlen : c.toNat = objs.length) :
    indicate st c (some (objs.map some)) =
      some (WBEM_NO_ERROR,
        { st with
          clones := st.clones ++ objs
          sends := st.sends ++ objs.map (fun p => Except.ok ⟨p⟩)
          warns := st.warns + objs.length }) := by
  rw [indicate_pos st c _ hc (by simp [hlen])]
  rw [List.take_of_length_le (by simp [hlen])]
  rw [loopList_map_some, sendAll_dead objs st hdead]

/-- Witness for C4: receiver dropped, two objects delivered, success
returned, queue untouched, two warnings logged. -/
theorem indicate_consumer_gone_spec_witness :
    indicate { initState with receiverAlive := false } 2
        (some [some 4, some 9]) =
      some (WBEM_NO_ERROR,
        { { initState with receiverAlive := false } with
          clones := { initState with receiverAlive := false }.clones ++ [4, 9]
          sends := { initState with receiverAlive := false }.sends ++
            [4, 9].map (fun p => Except.ok ⟨p⟩)
          warns := { initState with receiverAlive := false }.warns + 2 }) :=
  indicate_consumer_gone_spec { initState with receiverAlive := false } 2
    [4, 9] rfl (by decide) (by decide)

/-- C7: every slot before the first null slot among the first `count`
slots (all of them when there is none) undergoes exactly one
reference-count increment (one clone event) and exactly one channel send
call, in slot order. -/
theorem indicate_one_clone_one_send_per_slot (st : SinkState) (c : Int)
    (l : List Slot) (objs : List ObjId)
    (hc : 0 < c) (hlen : c.toNat ≤ l.length)
    (hpre : l.take c.toNat = objs.map some ∨
            ∃ rest, l.take c.toNat = objs.map some ++ none :: rest) :
    ∃ hr st', indicate st c (some l) = some (hr, st') ∧
      st'.clones = st.clones ++ objs ∧
      st'.sends = st.sends ++ objs.map (fun p => Except.ok ⟨p⟩) := by
  rw [indicate_pos st c l hc hlen]
  rcases hpre with h | ⟨rest, h⟩
  · rw [h, loopList_map_some]
    exact ⟨_, _, rfl, (sendAll_clones_sends objs st).1,
      (sendAll_clones_sends objs st).2⟩
  · rw [h, loopList_null]
    exact ⟨_, _, rfl, (sendAll_clones_sends objs st).1,
      (sendAll_clones_sends objs st).2⟩

/-- Witness for C7 at count 3 over `[some 4, none, some 9]`: the single
slot before the null slot is cloned once and sent once. -/
theorem indicate_one_clone_one_send_per_slot_witness :
    ∃ hr st', indicate initState 3 (some [some 4, none, some 9]) =
        some (hr, st') ∧
      st'.clones = initState.clones ++ [4] ∧
      st'.sends = initState.sends ++ [4].map (fun p => Except.ok ⟨p⟩) :=
  indicate_one_clone_one_send_per_slot initState 3 [some 4, none, some 9]
    [4] (by decide) (by decide) (Or.inr ⟨[some 9], rfl⟩)

/-- C5: after deliver-batch(2, [A, B]), deliver-batch(1, [C]) and
report-status(completion flag) on a fresh sink, with A = 1, B = 2, C = 3,
all three calls return `WBEM_NO_ERROR`, the channel holds exactly
`Ok A, Ok B, Ok C` in that order (no error element), and the channel is
closed, so the consumer observes `[A, B, C]` and then end-of-stream. -/
theorem scenario_abc_complete :
    runScenario.map (fun r => (r.1, r.2.queue, r.2.closed)) =
      some ([WBEM_NO_ERROR, WBEM_NO_ERROR, WBEM_NO_ERROR],
        [Except.ok ⟨1⟩, Except.ok ⟨2⟩, Except.ok ⟨3⟩], true) := rfl

/-- C9: in every reachable sink state, every element of the channel queue,
and indeed every element ever passed to a send call, is an `Ok` item; the
sink never enqueues an `Err` value, so the consumer never observes an
error element. -/
theorem sink_never_enqueues_err (st : SinkState) (h : Reachable st) :
    (∀ x ∈ st.queue, ∃ v, x = Except.ok v) ∧
    (∀ x ∈ st.sends, ∃ v, x = Except.ok v) := by
  induction h with
  | init => simp [initState]
  | indicate_step _ heq ih => exact indicate_ok heq ih.1 ih.2
  | status_step _ heq ih => exact set_status_ok heq ih.1 ih.2
  | drop_receiver _ ih => exact ih

/-- Witness for C9 at the state reached by one deliver-batch of a single
object. -/
theorem sink_never_enqueues_err_witness :
    (∀ x ∈ (⟨[Except.ok ⟨5⟩], false, true, [5], [Except.ok ⟨5⟩], 0⟩ :
        SinkState).queue, ∃ v, x = Except.ok v) ∧
    (∀ x ∈ (⟨[Except.ok ⟨5⟩], false, true, [5], [Except.ok ⟨5⟩], 0⟩ :
        SinkState).sends, ∃ v, x = Except.ok v) :=
  sink_never_enqueues_err _
    (Reachable.indicate_step Reachable.init
      (show indicate initState 1 (some [some 5]) =
          some (WBEM_NO_ERROR,
            ⟨[Except.ok ⟨5⟩], false, true, [5], [Except.ok ⟨5⟩], 0⟩)
        from rfl))

end WmiSink
